import Mathlib

/-!
Shallow embedding of the resilience layer of the go-sox repository:
the circuit breaker (src/circuit.go), the retry executor
(src/sox.go, executeWithRetry), the bounded worker pool
(src/unnamed/part_003), the seekable byte reader (src/bytes.go), the
ticker-mode Task orchestration (src/sox.go) and the incremental
checkpointed flush of the StreamConverter (src/unnamed/part_005).

Go machine integers are modelled as Int (no operation here approaches
overflow); wall-clock instants are explicit Int parameters threaded to
the functions that read the clock; the float64 backoff multiplier is
modelled as an exact integer fraction with the float-to-Duration
truncation modelled as Int floor division (the two agree on the
nonnegative values that occur); fallible Go functions return Option or
Except values.
Goroutine interleavings are modelled as sequential traces of the
locked critical sections.
-/

/-- Errors of the sox package: ErrCircuitOpen, ErrTooManyRequests and
ErrInvalidFormat from src/circuit.go, a generic worker failure, the
nil error value, and the wrapped "conversion failed after N attempts"
error produced by executeWithRetry (src/sox.go line 843). -/
inductive SoxErr where
  | circuitOpen
  | tooManyRequests
  | invalidFormat
  | workerFailure (code : Nat)
  | nilErr
  | exhausted (attempts : Nat) (cause : SoxErr)
deriving DecidableEq, Repr

/-- CircuitState from src/circuit.go lines 10-16. -/
inductive CircuitState where
  | stateClosed
  | stateOpen
  | stateHalfOpen
deriving DecidableEq, Repr

/-- CircuitBreaker from src/circuit.go lines 19-30: immutable config
(maxFailures, resetTimeout, halfOpenRequests) plus the mutexed mutable
fields (state, failures, lastFailTime, successCount, requestsInFly).
Durations and timestamps are Int nanoseconds; Go time.Time zero value
is modelled as instant 0. -/
structure CircuitBreaker where
  maxFailures : Int
  resetTimeout : Int
  halfOpenRequests : Int
  state : CircuitState
  failures : Int
  lastFailTime : Int
  successCount : Int
  requestsInFly : Int
deriving DecidableEq, Repr

/-- NewCircuitBreakerWithConfig, src/circuit.go lines 43-50: fresh
closed breaker with zeroed counters. -/
def NewCircuitBreakerWithConfig (maxFailures resetTimeout halfOpenRequests : Int) :
    CircuitBreaker :=
  ⟨maxFailures, resetTimeout, halfOpenRequests, CircuitState.stateClosed, 0, 0, 0, 0⟩

/-- beforeRequest, src/circuit.go lines 69-94, at clock instant now:
an Open breaker past its reset timeout moves to HalfOpen with
successCount and requestsInFly zeroed; then Open rejects with
ErrCircuitOpen, HalfOpen admits at most halfOpenRequests in-flight
probes (else ErrTooManyRequests), Closed admits. -/
def CircuitBreaker.beforeRequest (cb : CircuitBreaker) (now : Int) :
    Option SoxErr × CircuitBreaker :=
  let cb :=
    if cb.state = CircuitState.stateOpen ∧ now - cb.lastFailTime > cb.resetTimeout then
      {cb with state := CircuitState.stateHalfOpen, successCount := 0, requestsInFly := 0}
    else cb
  match cb.state with
  | CircuitState.stateOpen => (some SoxErr.circuitOpen, cb)
  | CircuitState.stateHalfOpen =>
      if cb.requestsInFly ≥ cb.halfOpenRequests then (some SoxErr.tooManyRequests, cb)
      else (none, {cb with requestsInFly := cb.requestsInFly + 1})
  | CircuitState.stateClosed => (none, cb)

/-- onSuccess, src/circuit.go lines 111-120: reset failures; in
HalfOpen count the success and close the circuit once successCount
reaches halfOpenRequests. -/
def CircuitBreaker.onSuccess (cb : CircuitBreaker) : CircuitBreaker :=
  let cb := {cb with failures := 0}
  if cb.state = CircuitState.stateHalfOpen then
    let cb := {cb with successCount := cb.successCount + 1}
    if cb.successCount ≥ cb.halfOpenRequests then
      {cb with state := CircuitState.stateClosed}
    else cb
  else cb

/-- onFailure, src/circuit.go lines 122-129, at clock instant now:
count the failure, stamp lastFailTime, open the circuit once failures
reaches maxFailures. -/
def CircuitBreaker.onFailure (cb : CircuitBreaker) (now : Int) : CircuitBreaker :=
  let cb := {cb with failures := cb.failures + 1, lastFailTime := now}
  if cb.failures ≥ cb.maxFailures then {cb with state := CircuitState.stateOpen} else cb

/-- afterRequest, src/circuit.go lines 96-109. -/
def CircuitBreaker.afterRequest (cb : CircuitBreaker) (now : Int) (err : Option SoxErr) :
    CircuitBreaker :=
  let cb :=
    if cb.state = CircuitState.stateHalfOpen then
      {cb with requestsInFly := cb.requestsInFly - 1}
    else cb
  match err with
  | some _ => cb.onFailure now
  | none => cb.onSuccess

/-- Call, src/circuit.go lines 58-67, at clock instant now. fnRes is
the result the wrapped function would return if invoked (none =
success); when beforeRequest rejects, fn is never invoked and the
rejection error is returned with the breaker state of the rejection. -/
def CircuitBreaker.Call (cb : CircuitBreaker) (now : Int) (fnRes : Option SoxErr) :
    Option SoxErr × CircuitBreaker :=
  match cb.beforeRequest now with
  | (some e, cb') => (some e, cb')
  | (none, cb') => (fnRes, cb'.afterRequest now fnRes)

/-- Reset, src/circuit.go lines 139-145. -/
def CircuitBreaker.Reset (cb : CircuitBreaker) : CircuitBreaker :=
  {cb with state := CircuitState.stateClosed, failures := 0, successCount := 0}

/-- Iterate Call k times at a fixed clock instant with a fixed wrapped
function result. -/
def callN (now : Int) (fnRes : Option SoxErr) : Nat → CircuitBreaker → CircuitBreaker
  | 0, cb => cb
  | k + 1, cb => (CircuitBreaker.Call (callN now fnRes k cb) now fnRes).2

example :
    (callN 0 (some (SoxErr.workerFailure 0)) 5 (NewCircuitBreakerWithConfig 5 100 3)).state =
      CircuitState.stateOpen := by decide

example :
    (callN 0 (some (SoxErr.workerFailure 0)) 4 (NewCircuitBreakerWithConfig 5 100 3)).state =
      CircuitState.stateClosed := by decide

/-- RetryConfig from src/circuit.go lines 148-153. MaxAttempts is the
loop bound (a natural number); backoffs are Int nanoseconds; the
float64 BackoffMultiple is modelled exactly as the fraction
backoffMultipleNum / backoffMultipleDen (with positive denominator). -/
structure RetryConfig where
  maxAttempts : Nat
  initialBackoff : Int
  maxBackoff : Int
  backoffMultipleNum : Int
  backoffMultipleDen : Int
deriving DecidableEq, Repr

/-- DefaultRetryConfig, src/circuit.go lines 156-163 (durations in
milliseconds here: 100ms initial, 5000ms max, multiplier 2.0). -/
def DefaultRetryConfig : RetryConfig := ⟨3, 100, 5000, 2, 1⟩

/-- The backoff update at src/sox.go lines 837-840: multiply by
BackoffMultiple (Go truncates the float64 product back to an integer
Duration; for the nonnegative durations that occur this is the floor,
here Int floor division by the positive denominator), then cap at
MaxBackoff. -/
def nextBackoff (cfg : RetryConfig) (b : Int) : Int :=
  let grown : Int := b * cfg.backoffMultipleNum / cfg.backoffMultipleDen
  if grown > cfg.maxBackoff then cfg.maxBackoff else grown

/-- Error classification at src/sox.go lines 819-825: with a breaker
configured, ErrCircuitOpen returns immediately; ErrInvalidFormat
always returns immediately. Every other error is retried. -/
def nonRetryable (hasBreaker : Bool) (e : SoxErr) : Prop :=
  (hasBreaker = true ∧ e = SoxErr.circuitOpen) ∨ e = SoxErr.invalidFormat

instance (hasBreaker : Bool) (e : SoxErr) : Decidable (nonRetryable hasBreaker e) := by
  unfold nonRetryable; infer_instance

/-- Observable outcome of one run of executeWithRetry: the returned
error (none = success), the number of times the attempt body (the
breaker-wrapped conversion) ran, and the backoff sleeps performed in
order. -/
structure RetryOutcome where
  err : Option SoxErr
  calls : Nat
  sleeps : List Int
deriving DecidableEq, Repr

/-- The retry loop of executeWithRetry, src/sox.go lines 793-844,
from a given attempt index with fuel = MaxAttempts - attempt
iterations left. res gives the observed error of each attempt body
(the result of circuitBreaker.Call around convertInternal when a
breaker is configured, of convertInternal alone otherwise); the
context is never cancelled in the modelled fragment. On a retryable
error that is not the last attempt the loop sleeps for the current
backoff, grows it, and retries; exhaustion returns the wrapped
"conversion failed after MaxAttempts attempts" error carrying the
last cause. -/
def retryFrom (cfg : RetryConfig) (hasBreaker : Bool) (res : Nat → Option SoxErr) :
    Nat → Nat → Int → SoxErr → RetryOutcome
  | 0, _, _, lastErr => ⟨some (SoxErr.exhausted cfg.maxAttempts lastErr), 0, []⟩
  | fuel + 1, attempt, backoff, _ =>
    match res attempt with
    | none => ⟨none, 1, []⟩
    | some e =>
      if nonRetryable hasBreaker e then ⟨some e, 1, []⟩
      else if fuel = 0 then ⟨some (SoxErr.exhausted cfg.maxAttempts e), 1, []⟩
      else
        let rest := retryFrom cfg hasBreaker res fuel (attempt + 1) (nextBackoff cfg backoff) e
        ⟨rest.err, rest.calls + 1, backoff :: rest.sleeps⟩

/-- executeWithRetry, src/sox.go lines 793-844: run the loop from
attempt 0 with the initial backoff; the Go lastErr starts as the nil
error. -/
def executeWithRetry (cfg : RetryConfig) (hasBreaker : Bool) (res : Nat → Option SoxErr) :
    RetryOutcome :=
  retryFrom cfg hasBreaker res cfg.maxAttempts 0 cfg.initialBackoff SoxErr.nilErr

/-- The backoff sequence starting from b: n successive sleep values. -/
def backoffs (cfg : RetryConfig) (b : Int) : Nat → List Int
  | 0 => []
  | n + 1 => b :: backoffs cfg (nextBackoff cfg b) n

example :
    executeWithRetry ⟨3, 10, 1, 2, 1⟩ false (fun _ => some (SoxErr.workerFailure 0)) =
      ⟨some (SoxErr.exhausted 3 (SoxErr.workerFailure 0)), 3, [10, 1]⟩ := by decide

example :
    executeWithRetry ⟨2, 1, 100, 2, 1⟩ true (fun _ => some SoxErr.tooManyRequests) =
      ⟨some (SoxErr.exhausted 2 SoxErr.tooManyRequests), 2, [1]⟩ := by decide

example :
    executeWithRetry ⟨3, 1, 100, 2, 1⟩ true (fun _ => some SoxErr.circuitOpen) =
      ⟨some SoxErr.circuitOpen, 1, []⟩ := by decide

/-- Pool from src/unnamed/part_003 lines 13-18: fixed maxWorkers, the
buffered semaphore channel (modelled by its current item count) and
the mutex-protected active counter. -/
structure Pool where
  maxWorkers : Nat
  semCount : Nat
  active : Int
deriving DecidableEq, Repr

/-- NewPoolWithLimit, src/unnamed/part_003 lines 38-47: a
non-positive limit falls back to the default 500. -/
def NewPoolWithLimit (maxWorkers : Int) : Pool :=
  if maxWorkers ≤ 0 then ⟨500, 0, 0⟩ else ⟨maxWorkers.toNat, 0, 0⟩

/-- The successful branch of Acquire, src/unnamed/part_003 lines
51-56: the semaphore send succeeds (a slot was reserved) and active is
incremented. -/
def Pool.acquireOk (p : Pool) : Pool :=
  {p with semCount := p.semCount + 1, active := p.active + 1}

/-- Release, src/unnamed/part_003 lines 63-68: decrement active and
receive one item back from the semaphore. -/
def Pool.release (p : Pool) : Pool :=
  {p with semCount := p.semCount - 1, active := p.active - 1}

/-- One pool operation of a sequential trace: an Acquire call
(recording whether its context was cancelled while it waited) or a
Release call. -/
inductive PoolOp where
  | acquire (ctxCancelled : Bool)
  | release
deriving DecidableEq, Repr

/-- Sequential trace semantics of the pool. A cancelled Acquire takes
the ctx.Done branch: it returns the admission error and leaves the
pool untouched. An uncancelled Acquire succeeds exactly when the
semaphore has room; with the whole capacity reserved it would block
forever, making the trace invalid (none). A Release without a
matching prior successful Acquire is the caller error the source does
not guard against, also an invalid trace. -/
def runOps : Pool → List PoolOp → Option Pool
  | p, [] => some p
  | p, PoolOp.acquire true :: rest => runOps p rest
  | p, PoolOp.acquire false :: rest =>
      if p.semCount < p.maxWorkers then runOps (p.acquireOk) rest else none
  | p, PoolOp.release :: rest =>
      if 1 ≤ p.active ∧ 1 ≤ p.semCount then runOps p.release rest else none

/-- ActiveWorkers, src/unnamed/part_003 lines 71-75. -/
def Pool.ActiveWorkers (p : Pool) : Int := p.active

example :
    runOps (NewPoolWithLimit 2)
      [PoolOp.acquire false, PoolOp.acquire false, PoolOp.acquire true, PoolOp.release] =
      some ⟨2, 1, 1⟩ := by decide

example :
    runOps (NewPoolWithLimit 2)
      [PoolOp.acquire false, PoolOp.acquire false, PoolOp.acquire false] = none := by decide

/-- The invalid-seek error of src/bytes.go line 8. -/
inductive SeekErr where
  | invalidSeek
deriving DecidableEq, Repr

/-- bytesReader from src/bytes.go lines 11-14: the wrapped byte slice
and the current read position (int64 in Go). -/
structure BytesReader where
  data : List Nat
  pos : Int
deriving DecidableEq, Repr

/-- newBytesReader, src/bytes.go lines 16-18. -/
def newBytesReader (data : List Nat) : BytesReader := ⟨data, 0⟩

/-- Read, src/bytes.go lines 20-27, with a destination buffer of
capacity k: at or past the end return (0 bytes, io.EOF); otherwise
copy min(k, len(data)-pos) bytes from data[pos:] and advance pos.
none models the io.EOF return. -/
def BytesReader.read (r : BytesReader) (k : Nat) : Option (List Nat) × BytesReader :=
  if r.pos ≥ (r.data.length : Int) then (none, r)
  else
    let chunk := (r.data.drop r.pos.toNat).take k
    (some chunk, {r with pos := r.pos + chunk.length})

/-- Seek, src/bytes.go lines 29-46. whence 0/1/2 are io.SeekStart,
io.SeekCurrent, io.SeekEnd; any other whence and any negative
resulting position return errInvalidSeek without moving pos. -/
def BytesReader.seek (r : BytesReader) (offset : Int) (whence : Nat) :
    Except SeekErr Int × BytesReader :=
  match (match whence with
         | 0 => some offset
         | 1 => some (r.pos + offset)
         | 2 => some ((r.data.length : Int) + offset)
         | _ => none) with
  | none => (Except.error SeekErr.invalidSeek, r)
  | some a =>
      if a < 0 then (Except.error SeekErr.invalidSeek, r)
      else (Except.ok a, {r with pos := a})

/-- Read the wrapped slice to exhaustion with k-byte read calls, as
io.ReadAll does to replay input; fuel bounds the number of read calls
(any fuel of at least len(data) reads everything, since each
successful k-byte read with k at least 1 advances pos). -/
def readToEnd (k : Nat) : Nat → BytesReader → List Nat
  | 0, _ => []
  | fuel + 1, r =>
    match r.read k with
    | (none, _) => []
    | (some c, r') => c ++ readToEnd k fuel r'

example : readToEnd 3 10 (newBytesReader [1, 2, 3, 4, 5, 6, 7]) = [1, 2, 3, 4, 5, 6, 7] := by
  decide

example : (BytesReader.seek ⟨[1, 2, 3], 2⟩ (-5) 1) = (Except.error SeekErr.invalidSeek, ⟨[1, 2, 3], 2⟩) := by
  rfl

/-- The ticker-mode state of a Task (src/sox.go lines 64-70) together
with the observable flush history: tickerSet models ticker != nil
(set by runTicker), tickerStopClosed models whether the tickerStop
channel has been closed, tickerBuffer is the accumulation buffer, and
emitted records, in order, each byte sequence handed to
convertInternal (and thence to the configured durable output) by
flushTickerBuffer. -/
structure TickerTask where
  tickerSet : Bool
  tickerStopClosed : Bool
  tickerBuffer : List Nat
  emitted : List (List Nat)
deriving DecidableEq, Repr

/-- A fresh Task as configured by New(...).WithTicker(interval),
src/sox.go lines 114-124 and 298-302: empty buffer, ticker not yet
created, tickerStop channel open. -/
def newTickerTask : TickerTask := ⟨false, false, [], []⟩

/-- The ticker branch of Task.Write, src/sox.go lines 469-475: under
the ticker lock, append to tickerBuffer and return the byte count.
No lifecycle state is consulted. -/
def tickerWrite (c : TickerTask) (data : List Nat) : Nat × TickerTask :=
  (data.length, {c with tickerBuffer := c.tickerBuffer ++ data})

/-- flushTickerBuffer, src/sox.go lines 662-688: on a non-empty
buffer, copy the ENTIRE buffer contents and hand the copy to
convertInternal. The line resetting the buffer after the copy
(c.tickerBuffer.Reset()) is commented out at src/sox.go line 672, so
the buffer keeps all bytes already flushed. -/
def flushTickerBuffer (c : TickerTask) : TickerTask :=
  if c.tickerBuffer.isEmpty then c
  else {c with emitted := c.emitted ++ [c.tickerBuffer]}

/-- runTicker, src/sox.go lines 636-659: reject a non-positive
interval, otherwise create the ticker (tickerSet) and spawn the tick
loop. A tick with a non-empty buffer runs flushTickerBuffer. -/
def runTicker (c : TickerTask) (duration : Int) : Except String TickerTask :=
  if duration ≤ 0 then Except.error "ticker duration must be positive"
  else Except.ok {c with tickerSet := true}

/-- Go runtime panics reachable in the modelled fragment. -/
inductive GoPanic where
  | closeOfClosedChannel
deriving DecidableEq, Repr

/-- stopTicker, src/sox.go lines 774-785: if the ticker exists, stop
it and close(c.tickerStop) - closing an already-closed Go channel
panics - then final-flush the buffer under the lock. -/
def stopTicker (c : TickerTask) : Except GoPanic TickerTask :=
  if c.tickerSet then
    if c.tickerStopClosed then Except.error GoPanic.closeOfClosedChannel
    else Except.ok (flushTickerBuffer {c with tickerStopClosed := true})
  else Except.ok (flushTickerBuffer c)

example :
    (tickerWrite newTickerTask [65, 65]).2 = ⟨false, false, [65, 65], []⟩ := by decide

/-- The mode and stream-lifecycle fields of Task consulted by
Task.Write (src/sox.go lines 45-77), plus the observable byte sinks:
tickerBuffer, the streamBuffer bookkeeping copy, and the bytes
written to the SoX process stdin. -/
structure TaskW where
  tickerMode : Bool
  streamMode : Bool
  streamStarted : Bool
  streamClosed : Bool
  streamStdinSet : Bool
  tickerBuffer : List Nat
  streamBuffer : List Nat
  stdinSent : List Nat
deriving DecidableEq, Repr

/-- Errors returned by Task.Write, src/sox.go lines 477-491. -/
inductive WriteErr where
  | writeOnlyStreamOrTicker
  | streamNotStarted
  | streamIsClosed
  | stdinNotInitialized
deriving DecidableEq, Repr

/-- Task.Write, src/sox.go lines 469-498. In ticker mode the data is
appended to tickerBuffer unconditionally; in stream mode the write is
rejected unless the stream has been started, not closed, and stdin
exists; otherwise the data goes to the bookkeeping buffer and to the
process stdin. The second component is the Task state after the
call. -/
def taskWrite (c : TaskW) (data : List Nat) : Except WriteErr Nat × TaskW :=
  if c.tickerMode then
    (Except.ok data.length, {c with tickerBuffer := c.tickerBuffer ++ data})
  else if c.streamMode = false then (Except.error WriteErr.writeOnlyStreamOrTicker, c)
  else if c.streamStarted = false then (Except.error WriteErr.streamNotStarted, c)
  else if c.streamClosed then (Except.error WriteErr.streamIsClosed, c)
  else if c.streamStdinSet = false then (Except.error WriteErr.stdinNotInitialized, c)
  else
    (Except.ok data.length,
      {c with streamBuffer := c.streamBuffer ++ data, stdinSent := c.stdinSent ++ data})

example :
    taskWrite ⟨true, false, false, false, false, [], [], []⟩ [7] =
      (Except.ok 1, ⟨true, false, false, false, false, [7], [], []⟩) := by rfl

/-- The incremental-flush state of a StreamConverter, src/unnamed/
part_005 lines 171-206: the accumulated SoX output buffer (filled by
the readOutput goroutine), the lastFlushPosition checkpoint, whether
the converter is closed and whether the output file is open, and the
bytes appended to the output file so far. -/
structure StreamConv where
  buffer : List Nat
  lastFlushPosition : Nat
  closed : Bool
  outputFileOpen : Bool
  fileOut : List Nat
deriving DecidableEq, Repr

/-- One iteration of the readOutput goroutine, src/unnamed/part_005
lines 655-669: append a chunk of SoX stdout to the buffer under
bufferLock. -/
def readOutputChunk (s : StreamConv) (chunk : List Nat) : StreamConv :=
  {s with buffer := s.buffer ++ chunk}

/-- writeAvailableData, src/unnamed/part_005 lines 442-493: when not
closed and the file is open, write buffer[lastFlushPosition:] to the
output file (an os.File.Write that returns without error writes the
whole slice), sync, and advance lastFlushPosition by the number of
bytes written. Returns the byte count written. -/
def writeAvailableData (s : StreamConv) : Nat × StreamConv :=
  if s.closed ∨ s.outputFileOpen = false then (0, s)
  else if s.buffer.length ≤ s.lastFlushPosition then (0, s)
  else
    let newData := s.buffer.drop s.lastFlushPosition
    (newData.length,
      {s with fileOut := s.fileOut ++ newData,
              lastFlushPosition := s.lastFlushPosition + newData.length})

/-- The final-flush tail of Flush, src/unnamed/part_005 lines
548-558: with the output file still open, write any data past
lastFlushPosition, sync and close the file, marking the converter
closed. -/
def flushFinal (s : StreamConv) : StreamConv :=
  if s.outputFileOpen then
    if s.lastFlushPosition < s.buffer.length then
      {s with closed := true, outputFileOpen := false,
              fileOut := s.fileOut ++ s.buffer.drop s.lastFlushPosition}
    else {s with closed := true, outputFileOpen := false}
  else {s with closed := true}

/-- Events interleaving on a StreamConverter in incremental-flush
mode: output drained from the SoX process and auto-flush ticks. -/
inductive SCOp where
  | drain (chunk : List Nat)
  | autoFlushTick
deriving DecidableEq, Repr

/-- Run a sequence of drain/auto-flush events. -/
def runSC : StreamConv → List SCOp → StreamConv
  | s, [] => s
  | s, SCOp.drain chunk :: rest => runSC (readOutputChunk s chunk) rest
  | s, SCOp.autoFlushTick :: rest => runSC (writeAvailableData s).2 rest

example :
    (runSC ⟨[], 0, false, true, []⟩
      [SCOp.drain [1, 2], SCOp.autoFlushTick, SCOp.drain [3], SCOp.autoFlushTick]).fileOut =
      [1, 2, 3] := by decide

/-- C1: evaluation of the ticker flush path at the failing input
Write("AAAA"); tick-flush; Write("BBBB"); tick-flush (bytes 65 = A,
66 = B). Because src/sox.go line 672 comments out the buffer reset,
the second flush hands the whole buffer to the converter again: the
sink-bound concatenation is AAAA AAAA BBBB, re-emitting AAAA, instead
of the claimed AAAABBBB with each byte exactly once. -/
theorem tickerFlush_duplicates_sink_bytes :
    (flushTickerBuffer (tickerWrite (flushTickerBuffer
        (tickerWrite newTickerTask [65, 65, 65, 65]).2) [66, 66, 66, 66]).2).emitted =
      [[65, 65, 65, 65], [65, 65, 65, 65, 66, 66, 66, 66]] ∧
    (flushTickerBuffer (tickerWrite (flushTickerBuffer
        (tickerWrite newTickerTask [65, 65, 65, 65]).2) [66, 66, 66, 66]).2).emitted.flatten ≠
      [65, 65, 65, 65, 66, 66, 66, 66] := by decide

/-- C5: evaluation at the failing input Start(); Stop(); Stop() on a
ticker-mode job. The first Stop succeeds; the second reaches
close(c.tickerStop) on the already-closed channel (src/sox.go line
777) and panics, instead of being the claimed error-free no-op. -/
theorem stopTicker_second_call_panics :
    runTicker newTickerTask 3 = Except.ok ⟨true, false, [], []⟩ ∧
    stopTicker ⟨true, false, [], []⟩ = Except.ok ⟨true, true, [], []⟩ ∧
    stopTicker ⟨true, true, [], []⟩ = Except.error GoPanic.closeOfClosedChannel := by
  exact ⟨rfl, rfl, rfl⟩

/-- C6 counterexample: a ticker-mode Task on which Start() was never
called (lifecycle Idle) accepts Write([7]) - the call returns ok 1
and appends to the accumulation buffer - refuting the claim that
Write is rejected with the buffer unchanged whenever the job is not
Started. -/
theorem tickerWrite_accepted_when_not_started :
    taskWrite ⟨true, false, false, false, false, [], [], []⟩ [7] =
      (Except.ok 1, ⟨true, false, false, false, false, [7], [], []⟩) ∧
    (⟨true, false, false, false, false, [7], [], []⟩ : TaskW) ≠
      ⟨true, false, false, false, false, [], [], []⟩ := by
  exact ⟨rfl, by decide⟩

/-- C2 counterexample: breaker with maxFailures 2, resetTimeout 100,
halfOpenProbeLimit 2; two failures at instant 0 open it; at instant
150 a successful probe is admitted (entering HalfOpen and resetting
failures to 0), then a failing probe at 150 leaves the breaker in
HalfOpen (failures 1 < 2) - not Open as the claim asserts for a
failing call made after earlier probes succeeded. -/
theorem halfOpen_failure_after_success_not_open :
    (CircuitBreaker.Call
      (CircuitBreaker.Call
        (callN 0 (some (SoxErr.workerFailure 0)) 2 (NewCircuitBreakerWithConfig 2 100 2))
        150 none).2
      150 (some (SoxErr.workerFailure 0))).2.state = CircuitState.stateHalfOpen ∧
    (CircuitBreaker.Call
      (CircuitBreaker.Call
        (callN 0 (some (SoxErr.workerFailure 0)) 2 (NewCircuitBreakerWithConfig 2 100 2))
        150 none).2
      150 (some (SoxErr.workerFailure 0))).2.state ≠ CircuitState.stateOpen := by decide

/-- C4 counterexample: retry policy with maxAttempts 2 and a breaker
configured; every attempt observes ErrTooManyRequests. The executor
does NOT return that error immediately: it runs a second attempt,
sleeps the 1ns backoff in between, and returns the wrapped exhaustion
error instead - refuting the claimed immediate return for
TooManyProbesError. -/
theorem tooManyRequests_retried_not_immediate :
    executeWithRetry ⟨2, 1, 100, 2, 1⟩ true (fun _ => some SoxErr.tooManyRequests) =
      ⟨some (SoxErr.exhausted 2 SoxErr.tooManyRequests), 2, [1]⟩ ∧
    (executeWithRetry ⟨2, 1, 100, 2, 1⟩ true
      (fun _ => some SoxErr.tooManyRequests)).err ≠ some SoxErr.tooManyRequests ∧
    (executeWithRetry ⟨2, 1, 100, 2, 1⟩ true
      (fun _ => some SoxErr.tooManyRequests)).calls ≠ 1 := by decide

/-- C8 counterexample: the policy maxAttempts 3, initialBackoff 10,
maxBackoff 1, multiplier 2 satisfies every hypothesis of the claim
(maxAttempts at least 1, positive initial backoff, multiplier above
1), yet an all-failing run sleeps [10, 1]: the first delay exceeds
maxBackoff = 1 and the sequence decreases, refuting both claimed
properties. The first delay is the uncapped initialBackoff
(src/sox.go line 794). -/
theorem backoff_initial_uncapped_counterexample :
    (executeWithRetry ⟨3, 10, 1, 2, 1⟩ false (fun _ => some (SoxErr.workerFailure 0))).sleeps =
      [10, 1] ∧
    ¬(List.Chain' (fun a b => a ≤ b)
        (executeWithRetry ⟨3, 10, 1, 2, 1⟩ false
          (fun _ => some (SoxErr.workerFailure 0))).sleeps ∧
      ∀ d ∈ (executeWithRetry ⟨3, 10, 1, 2, 1⟩ false
          (fun _ => some (SoxErr.workerFailure 0))).sleeps, d ≤ 1) := by
  have hs :
      (executeWithRetry ⟨3, 10, 1, 2, 1⟩ false
        (fun _ => some (SoxErr.workerFailure 0))).sleeps = [10, 1] := by decide
  refine ⟨hs, fun h => ?_⟩
  have h10 : (10 : Int) ≤ 1 := h.2 10 (by rw [hs]; exact List.mem_cons_self 10 [1])
  omega

/-- Single-step unfolding of the retry loop with fuel left. -/
theorem retryFrom_succ (cfg : RetryConfig) (hasBreaker : Bool) (res : Nat → Option SoxErr)
    (fuel attempt : Nat) (b : Int) (lastErr : SoxErr) :
    retryFrom cfg hasBreaker res (fuel + 1) attempt b lastErr =
      match res attempt with
      | none => ⟨none, 1, []⟩
      | some e =>
        if nonRetryable hasBreaker e then ⟨some e, 1, []⟩
        else if fuel = 0 then ⟨some (SoxErr.exhausted cfg.maxAttempts e), 1, []⟩
        else
          let rest := retryFrom cfg hasBreaker res fuel (attempt + 1) (nextBackoff cfg b) e
          ⟨rest.err, rest.calls + 1, b :: rest.sleeps⟩ := rfl

/-- Helper: on a run whose every attempt fails with a retryable
error, the loop makes exactly fuel more attempts, sleeps fuel - 1
more times following the backoff sequence, and wraps the error of the
final attempt. -/
theorem retryFrom_allFail (cfg : RetryConfig) (hasBreaker : Bool) (f : Nat → SoxErr)
    (hf : ∀ i, ¬ nonRetryable hasBreaker (f i)) :
    ∀ fuel attempt b lastErr, 1 ≤ fuel →
      retryFrom cfg hasBreaker (fun i => some (f i)) fuel attempt b lastErr =
        ⟨some (SoxErr.exhausted cfg.maxAttempts (f (attempt + fuel - 1))), fuel,
          backoffs cfg b (fuel - 1)⟩ := by
  intro fuel
  induction fuel with
  | zero => intro attempt b lastErr h; omega
  | succ n ih =>
    intro attempt b lastErr _
    cases n with
    | zero => simp [retryFrom, hf attempt, backoffs]
    | succ m =>
      have hrec := ih (attempt + 1) (nextBackoff cfg b) (f attempt) (by omega)
      have harith : attempt + 1 + (m + 1) - 1 = attempt + (m + 1 + 1) - 1 := by omega
      rw [harith] at hrec
      rw [retryFrom_succ]
      simp only [if_neg (hf attempt), if_neg (Nat.succ_ne_zero m), hrec]
      simp [backoffs]

/-- Helper: if the attempts before index k fail with retryable errors
and attempt k observes a non-retryable error, the loop stops at
attempt k: it returns that error after exactly k + 1 attempts and k
backoff sleeps. -/
theorem retryFrom_stopAt (cfg : RetryConfig) (hasBreaker : Bool) (res : Nat → Option SoxErr)
    (e : SoxErr) (he : nonRetryable hasBreaker e) :
    ∀ k fuel attempt b lastErr, k + 1 ≤ fuel →
      (∀ i < k, ∃ ei, res (attempt + i) = some ei ∧ ¬ nonRetryable hasBreaker ei) →
      res (attempt + k) = some e →
      retryFrom cfg hasBreaker res fuel attempt b lastErr = ⟨some e, k + 1, backoffs cfg b k⟩ := by
  intro k
  induction k with
  | zero =>
    intro fuel attempt b lastErr hfuel _ hres
    cases fuel with
    | zero => omega
    | succ n =>
      rw [Nat.add_zero] at hres
      simp [retryFrom, hres, he, backoffs]
  | succ j ih =>
    intro fuel attempt b lastErr hfuel hpre hres
    cases fuel with
    | zero => omega
    | succ n =>
      obtain ⟨e0, he0, he0r⟩ := hpre 0 (by omega)
      rw [Nat.add_zero] at he0
      have hn : n ≠ 0 := by omega
      have hrec := ih n (attempt + 1) (nextBackoff cfg b) e0 (by omega)
        (fun i hi => by
          obtain ⟨ei, hei, heir⟩ := hpre (i + 1) (by omega)
          exact ⟨ei, by rw [show attempt + 1 + i = attempt + (i + 1) by omega]; exact hei, heir⟩)
        (by rw [show attempt + 1 + j = attempt + (j + 1) by omega]; exact hres)
      simp [retryFrom, he0, he0r, hn, hrec, backoffs]

/-- C7: a function failing with a retryable error on every attempt is
invoked exactly maxAttempts times, the loop sleeps the backoff
sequence between consecutive attempts, and the result is the wrapped
"conversion failed after maxAttempts attempts" error carrying the
error of the last attempt as its cause (src/sox.go lines 793-844). -/
theorem retry_exhaustion_wraps_last_error (cfg : RetryConfig) (hasBreaker : Bool)
    (f : Nat → SoxErr) (hA : 1 ≤ cfg.maxAttempts)
    (hf : ∀ i, ¬ nonRetryable hasBreaker (f i)) :
    executeWithRetry cfg hasBreaker (fun i => some (f i)) =
      ⟨some (SoxErr.exhausted cfg.maxAttempts (f (cfg.maxAttempts - 1))), cfg.maxAttempts,
        backoffs cfg cfg.initialBackoff (cfg.maxAttempts - 1)⟩ := by
  have h := retryFrom_allFail cfg hasBreaker f hf cfg.maxAttempts 0 cfg.initialBackoff
    SoxErr.nilErr hA
  simpa [executeWithRetry] using h

/-- Witness for C7: with maxAttempts 3, initial backoff 1, max 100,
multiplier 2 and every attempt failing as workerFailure 7, Execute
makes 3 attempts, sleeps [1, 2] and returns the exhaustion wrap of
workerFailure 7. -/
theorem retry_exhaustion_wraps_last_error_witness :
    executeWithRetry ⟨3, 1, 100, 2, 1⟩ true (fun _ => some (SoxErr.workerFailure 7)) =
      ⟨some (SoxErr.exhausted 3 (SoxErr.workerFailure 7)), 3, [1, 2]⟩ := by
  have h := retry_exhaustion_wraps_last_error ⟨3, 1, 100, 2, 1⟩ true
    (fun _ => SoxErr.workerFailure 7) (by decide) (fun i => by simp [nonRetryable])
  simpa [backoffs, nextBackoff] using h

/-- C4 amended: the retry executor returns immediately - after the
failing attempt, with no further attempts and no further backoff
sleeps - exactly for ErrCircuitOpen observed with a breaker
configured and for the non-retryable ErrInvalidFormat; an attempt
failing with ErrTooManyRequests is instead treated as retryable and
retried with backoff like a transient error (src/sox.go lines
819-825 test only those two errors). -/
theorem retry_error_classification_amended (cfg : RetryConfig) (hasBreaker : Bool)
    (res : Nat → Option SoxErr) (e : SoxErr) (k : Nat) :
    (k < cfg.maxAttempts →
      (∀ i, i < k → ∃ ei, res i = some ei ∧ ¬ nonRetryable hasBreaker ei) →
      res k = some e → nonRetryable hasBreaker e →
      executeWithRetry cfg hasBreaker res =
        ⟨some e, k + 1, backoffs cfg cfg.initialBackoff k⟩) ∧
    (1 ≤ cfg.maxAttempts →
      executeWithRetry cfg hasBreaker (fun _ => some SoxErr.tooManyRequests) =
        ⟨some (SoxErr.exhausted cfg.maxAttempts SoxErr.tooManyRequests), cfg.maxAttempts,
          backoffs cfg cfg.initialBackoff (cfg.maxAttempts - 1)⟩) := by
  constructor
  · intro hk hpre hres he
    have h := retryFrom_stopAt cfg hasBreaker res e he k cfg.maxAttempts 0
      cfg.initialBackoff SoxErr.nilErr (by omega)
      (fun i hi => by simpa using hpre i hi) (by simpa using hres)
    simpa [executeWithRetry] using h
  · intro hA
    have h := retryFrom_allFail cfg hasBreaker (fun _ => SoxErr.tooManyRequests)
      (fun i => by simp [nonRetryable]) cfg.maxAttempts 0 cfg.initialBackoff SoxErr.nilErr hA
    simpa [executeWithRetry] using h

/-- Witness for the amended C4: a first attempt observing
ErrCircuitOpen with a breaker configured stops the loop at once (one
attempt, no sleep), while ErrTooManyRequests on every attempt of a
2-attempt policy yields two attempts and one sleep. -/
theorem retry_error_classification_amended_witness :
    executeWithRetry ⟨3, 1, 100, 2, 1⟩ true (fun _ => some SoxErr.circuitOpen) =
      ⟨some SoxErr.circuitOpen, 1, []⟩ ∧
    executeWithRetry ⟨2, 1, 100, 2, 1⟩ true (fun _ => some SoxErr.tooManyRequests) =
      ⟨some (SoxErr.exhausted 2 SoxErr.tooManyRequests), 2, [1]⟩ := by
  constructor
  · have h := (retry_error_classification_amended ⟨3, 1, 100, 2, 1⟩ true
      (fun _ => some SoxErr.circuitOpen) SoxErr.circuitOpen 0).1
      (by decide) (fun i hi => absurd hi (Nat.not_lt_zero i)) rfl
      (Or.inl ⟨rfl, rfl⟩)
    simpa [backoffs] using h
  · have h := (retry_error_classification_amended ⟨2, 1, 100, 2, 1⟩ true
      (fun _ => some SoxErr.tooManyRequests) SoxErr.nilErr 0).2 (by decide)
    simpa [backoffs, nextBackoff] using h

/-- Helper: the grown-and-capped backoff never exceeds MaxBackoff. -/
theorem nextBackoff_le_max (cfg : RetryConfig) (b : Int) :
    nextBackoff cfg b ≤ cfg.maxBackoff ∨
      nextBackoff cfg b = b * cfg.backoffMultipleNum / cfg.backoffMultipleDen := by
  simp only [nextBackoff]
  split_ifs with h
  · exact Or.inl le_rfl
  · exact Or.inr rfl

/-- Helper: with a positive denominator the capped update stays at or
below MaxBackoff. -/
theorem nextBackoff_le_max' (cfg : RetryConfig) (b : Int) :
    nextBackoff cfg b ≤ cfg.maxBackoff := by
  simp only [nextBackoff]
  split_ifs with h
  · exact le_rfl
  · exact le_of_not_lt h

/-- Helper: a positive backoff at or below MaxBackoff does not shrink
under the update when the multiplier num/den is at least 1. -/
theorem le_nextBackoff (cfg : RetryConfig) (b : Int) (hden : 0 < cfg.backoffMultipleDen)
    (hnum : cfg.backoffMultipleDen ≤ cfg.backoffMultipleNum) (hb : 0 < b)
    (hbm : b ≤ cfg.maxBackoff) : b ≤ nextBackoff cfg b := by
  simp only [nextBackoff]
  split_ifs with h
  · exact hbm
  · rw [Int.le_ediv_iff_mul_le hden]
    exact mul_le_mul_of_nonneg_left hnum (le_of_lt hb)

/-- Helper: the sleeps list of a retry run is empty or starts with
the backoff the run was entered with. -/
theorem retryFrom_sleeps_head (cfg : RetryConfig) (hasBreaker : Bool)
    (res : Nat → Option SoxErr) (fuel attempt : Nat) (b : Int) (lastErr : SoxErr) :
    (retryFrom cfg hasBreaker res fuel attempt b lastErr).sleeps = [] ∨
    ∃ tl, (retryFrom cfg hasBreaker res fuel attempt b lastErr).sleeps = b :: tl := by
  cases fuel with
  | zero => exact Or.inl rfl
  | succ n =>
    rw [retryFrom_succ]
    cases hres : res attempt with
    | none => exact Or.inl rfl
    | some e =>
      by_cases h1 : nonRetryable hasBreaker e
      · simp [h1]
      · by_cases h2 : n = 0
        · simp [h1, h2]
        · simp only [h1, h2, if_false]
          exact Or.inr ⟨_, rfl⟩

/-- Helper: starting from a positive backoff at or below MaxBackoff
and a multiplier of at least 1, the sleeps of any retry run are
non-decreasing and all bounded by MaxBackoff. -/
theorem retryFrom_sleeps_mono (cfg : RetryConfig) (hasBreaker : Bool)
    (res : Nat → Option SoxErr) (hden : 0 < cfg.backoffMultipleDen)
    (hnum : cfg.backoffMultipleDen ≤ cfg.backoffMultipleNum) :
    ∀ fuel attempt b lastErr, 0 < b → b ≤ cfg.maxBackoff →
      List.Chain' (fun x y => x ≤ y)
        (retryFrom cfg hasBreaker res fuel attempt b lastErr).sleeps ∧
      ∀ d ∈ (retryFrom cfg hasBreaker res fuel attempt b lastErr).sleeps,
        d ≤ cfg.maxBackoff := by
  intro fuel
  induction fuel with
  | zero => intro attempt b lastErr hb hbm; exact ⟨List.chain'_nil, by simp [retryFrom]⟩
  | succ n ih =>
    intro attempt b lastErr hb hbm
    rw [retryFrom_succ]
    cases hres : res attempt with
    | none => exact ⟨List.chain'_nil, by simp⟩
    | some e =>
      by_cases h1 : nonRetryable hasBreaker e
      · simp [h1]
      · by_cases h2 : n = 0
        · simp [h1, h2]
        · simp only [h1, h2, if_false]
          have hnb : 0 < nextBackoff cfg b :=
            lt_of_lt_of_le hb (le_nextBackoff cfg b hden hnum hb hbm)
          have hnbm : nextBackoff cfg b ≤ cfg.maxBackoff := nextBackoff_le_max' cfg b
          obtain ⟨hchain, hbound⟩ := ih (attempt + 1) (nextBackoff cfg b) e hnb hnbm
          refine ⟨?_, ?_⟩
          · rw [List.chain'_cons']
            refine ⟨?_, hchain⟩
            intro y hy
            rcases retryFrom_sleeps_head cfg hasBreaker res n (attempt + 1)
              (nextBackoff cfg b) e with hnil | ⟨tl, htl⟩
            · rw [hnil] at hy; simp at hy
            · rw [htl] at hy
              simp at hy
              rw [← hy]
              exact le_nextBackoff cfg b hden hnum hb hbm
          · intro d hd
            rcases List.mem_cons.mp hd with hdb | hdrest
            · exact hdb ▸ hbm
            · exact hbound d hdrest

/-- C8 amended: for every retry policy with a positive initial
backoff that does not exceed MaxBackoff, a multiplier of at least 1
(the claim assumes above 1), and any attempt outcomes, the sequence
of backoff delays slept by the retry loop is monotonically
non-decreasing and every delay is at most MaxBackoff. The
counterexample forces the added hypothesis initialBackoff at most
MaxBackoff: the first delay is the uncapped initial backoff. -/
theorem backoff_monotone_capped_amended (cfg : RetryConfig) (hasBreaker : Bool)
    (res : Nat → Option SoxErr) (hden : 0 < cfg.backoffMultipleDen)
    (hnum : cfg.backoffMultipleDen ≤ cfg.backoffMultipleNum)
    (hb0 : 0 < cfg.initialBackoff) (hbm : cfg.initialBackoff ≤ cfg.maxBackoff) :
    List.Chain' (fun x y => x ≤ y) (executeWithRetry cfg hasBreaker res).sleeps ∧
    ∀ d ∈ (executeWithRetry cfg hasBreaker res).sleeps, d ≤ cfg.maxBackoff :=
  retryFrom_sleeps_mono cfg hasBreaker res hden hnum cfg.maxAttempts 0
    cfg.initialBackoff SoxErr.nilErr hb0 hbm

/-- Witness for the amended C8: the all-failing run of the policy
maxAttempts 3, initialBackoff 1, maxBackoff 100, multiplier 2 sleeps
a non-decreasing sequence bounded by 100. -/
theorem backoff_monotone_capped_amended_witness :
    List.Chain' (fun x y => x ≤ y)
      (executeWithRetry ⟨3, 1, 100, 2, 1⟩ false
        (fun _ => some (SoxErr.workerFailure 0))).sleeps ∧
    ∀ d ∈ (executeWithRetry ⟨3, 1, 100, 2, 1⟩ false
        (fun _ => some (SoxErr.workerFailure 0))).sleeps, d ≤ 100 :=
  backoff_monotone_capped_amended ⟨3, 1, 100, 2, 1⟩ false
    (fun _ => some (SoxErr.workerFailure 0)) (by decide) (by decide) (by decide) (by decide)

/-- Helper: k consecutive failing calls, k below the failure
threshold, leave a fresh breaker Closed with failures = k and
lastFailTime stamped by the last failure. -/
theorem callsFail_closed (n : Nat) (rt ho t : Int) (e : SoxErr) :
    ∀ k : Nat, (k : Int) < (n : Int) →
      callN t (some e) k (NewCircuitBreakerWithConfig n rt ho) =
        ⟨n, rt, ho, CircuitState.stateClosed, k, if k = 0 then 0 else t, 0, 0⟩ := by
  intro k
  induction k with
  | zero => intro _; rfl
  | succ j ih =>
    intro hlt
    have hj := ih (by push_cast at hlt ⊢; omega)
    simp only [callN, hj]
    have hthr : ¬ ((j : Int) + 1 ≥ (n : Int)) := by push_cast at hlt; omega
    simp [CircuitBreaker.Call, CircuitBreaker.beforeRequest, CircuitBreaker.afterRequest,
      CircuitBreaker.onFailure, hthr]

/-- Helper: exactly maxFailures consecutive failing calls open a
fresh breaker, leaving failures = n and lastFailTime = t. -/
theorem callsFail_opens (n : Nat) (rt ho t : Int) (e : SoxErr) (hn : 1 ≤ n) :
    callN t (some e) n (NewCircuitBreakerWithConfig n rt ho) =
      ⟨n, rt, ho, CircuitState.stateOpen, n, t, 0, 0⟩ := by
  cases n with
  | zero => omega
  | succ j =>
    have hj := callsFail_closed (j + 1) rt ho t e j (by omega)
    simp only [callN, hj]
    have hthr : ((j : Int) + 1 ≥ ((j + 1 : Nat) : Int)) := by omega
    simp [CircuitBreaker.Call, CircuitBreaker.beforeRequest, CircuitBreaker.afterRequest,
      CircuitBreaker.onFailure, hthr]

/-- C3: with maxFailures = n (n at least 1) and a fresh breaker, n
consecutive failing calls leave State() = Open with failures = n;
while still within resetTimeout of the last failure, any further Call
returns ErrCircuitOpen with the breaker completely unchanged - in
particular the wrapped function result fnRes is irrelevant (fn is
never invoked) and the failure counter is not incremented
(src/circuit.go lines 58-94). -/
theorem circuitBreaker_threshold_opens_and_rejects (n : Nat) (rt ho t now : Int)
    (e : SoxErr) (hn : 1 ≤ n) (hwithin : now - t ≤ rt) :
    (callN t (some e) n (NewCircuitBreakerWithConfig n rt ho)).state =
      CircuitState.stateOpen ∧
    (callN t (some e) n (NewCircuitBreakerWithConfig n rt ho)).failures = (n : Int) ∧
    ∀ fnRes,
      CircuitBreaker.Call (callN t (some e) n (NewCircuitBreakerWithConfig n rt ho)) now
          fnRes =
        (some SoxErr.circuitOpen,
          callN t (some e) n (NewCircuitBreakerWithConfig n rt ho)) := by
  have hopen := callsFail_opens n rt ho t e hn
  rw [hopen]
  refine ⟨rfl, rfl, ?_⟩
  intro fnRes
  have hstay : ¬ (now - t > rt) := by omega
  simp [CircuitBreaker.Call, CircuitBreaker.beforeRequest, hstay]

/-- Witness for C3: maxFailures 5, resetTimeout 100, probe limit 3;
five failing calls at instant 0 open the breaker and a call at
instant 50 (within the timeout) is rejected unchanged even though the
wrapped function would have succeeded. -/
theorem circuitBreaker_threshold_opens_and_rejects_witness :
    (callN 0 (some (SoxErr.workerFailure 0)) 5 (NewCircuitBreakerWithConfig 5 100 3)).state =
      CircuitState.stateOpen ∧
    (callN 0 (some (SoxErr.workerFailure 0)) 5
      (NewCircuitBreakerWithConfig 5 100 3)).failures = 5 ∧
    CircuitBreaker.Call
        (callN 0 (some (SoxErr.workerFailure 0)) 5 (NewCircuitBreakerWithConfig 5 100 3)) 50
        none =
      (some SoxErr.circuitOpen,
        callN 0 (some (SoxErr.workerFailure 0)) 5 (NewCircuitBreakerWithConfig 5 100 3)) := by
  have h := circuitBreaker_threshold_opens_and_rejects 5 100 3 0 50
    (SoxErr.workerFailure 0) (by decide) (by decide)
  exact ⟨h.1, h.2.1, h.2.2 none⟩

/-- Helper: from an Open breaker at its failure threshold, once the
reset timeout has elapsed, k successful calls (1 <= k <= probe limit)
run as admitted half-open probes: failures is reset, successCount
reaches k, and the breaker closes exactly when k reaches the probe
limit. -/
theorem callsSucc_halfOpen (n h : Nat) (rt t now : Int) (hh : 1 ≤ h)
    (helap : now - t > rt) :
    ∀ k : Nat, 1 ≤ k → k ≤ h →
      callN now none k ⟨n, rt, h, CircuitState.stateOpen, n, t, 0, 0⟩ =
        ⟨n, rt, h, if k = h then CircuitState.stateClosed else CircuitState.stateHalfOpen,
          0, t, k, 0⟩ := by
  intro k
  induction k with
  | zero => intro h1 _; omega
  | succ j ih =>
    intro _ hle
    rcases Nat.eq_zero_or_pos j with hj0 | hjpos
    · subst hj0
      have hfly : ¬ ((0 : Int) ≥ (h : Int)) := by omega
      by_cases hc : 1 = h
      · have hsc : ((0 : Int) + 1 ≥ (h : Int)) := by omega
        simp [callN, CircuitBreaker.Call, CircuitBreaker.beforeRequest,
          CircuitBreaker.afterRequest, CircuitBreaker.onSuccess, helap, hfly, hsc, hc]
        all_goals omega
      · have hsc : ¬ ((0 : Int) + 1 ≥ (h : Int)) := by
          push_cast
          omega
        simp [callN, CircuitBreaker.Call, CircuitBreaker.beforeRequest,
          CircuitBreaker.afterRequest, CircuitBreaker.onSuccess, helap, hfly, hsc, hc]
        all_goals omega
    · have hrec := ih hjpos (by omega)
      rw [if_neg (by omega : ¬ j = h)] at hrec
      simp only [callN, hrec]
      have hfly : ¬ ((0 : Int) ≥ (h : Int)) := by omega
      by_cases hc : j + 1 = h
      · have hsc : ((j : Int) + 1 ≥ (h : Int)) := by omega
        simp [CircuitBreaker.Call, CircuitBreaker.beforeRequest,
          CircuitBreaker.afterRequest, CircuitBreaker.onSuccess, hfly, hsc, hc]
        all_goals omega
      · have hsc : ¬ ((j : Int) + 1 ≥ (h : Int)) := by omega
        simp [CircuitBreaker.Call, CircuitBreaker.beforeRequest,
          CircuitBreaker.afterRequest, CircuitBreaker.onSuccess, hfly, hsc, hc]

/-- C2 amended: take a fresh breaker with maxFailures = n (n at least
1) and probe limit h (h at least 1), opened by n failing calls at
instant t, and let the reset timeout elapse (now - t > resetTimeout).
Then (i) the next Call is admitted as a half-open probe: beforeRequest
moves the breaker to HalfOpen with successCountInHalfOpen and
inFlightInHalfOpen reset to 0, then counts the admitted probe in
flight; (ii) h successful calls close the breaker; and (iii) a
failing call made while the failure count is still at the threshold
(that is, before any successful probe - the amendment the
counterexample forces, since a success resets failureCount and a
subsequent failure then leaves the breaker HalfOpen) immediately
returns the breaker to Open (src/circuit.go lines 69-129). -/
theorem circuitBreaker_recovery_amended (n h : Nat) (rt t now : Int) (e : SoxErr)
    (hn : 1 ≤ n) (hh : 1 ≤ h) (helap : now - t > rt) :
    callN t (some e) n (NewCircuitBreakerWithConfig n rt h) =
      ⟨n, rt, h, CircuitState.stateOpen, n, t, 0, 0⟩ ∧
    CircuitBreaker.beforeRequest ⟨n, rt, h, CircuitState.stateOpen, n, t, 0, 0⟩ now =
      (none, ⟨n, rt, h, CircuitState.stateHalfOpen, n, t, 0, 1⟩) ∧
    callN now none h ⟨n, rt, h, CircuitState.stateOpen, n, t, 0, 0⟩ =
      ⟨n, rt, h, CircuitState.stateClosed, 0, t, h, 0⟩ ∧
    (CircuitBreaker.Call ⟨n, rt, h, CircuitState.stateOpen, n, t, 0, 0⟩ now
        (some e)).2.state = CircuitState.stateOpen := by
  refine ⟨callsFail_opens n rt h t e hn, ?_, ?_, ?_⟩
  · have hfly : ¬ ((0 : Int) ≥ (h : Int)) := by omega
    simp [CircuitBreaker.beforeRequest, helap, hfly]
  · have hiter := callsSucc_halfOpen n h rt t now hh helap h hh le_rfl
    simpa using hiter
  · have hfly : ¬ ((0 : Int) ≥ (h : Int)) := by omega
    have hthr : ((n : Int) + 1 ≥ (n : Int)) := by omega
    simp [CircuitBreaker.Call, CircuitBreaker.beforeRequest, CircuitBreaker.afterRequest,
      CircuitBreaker.onFailure, helap, hfly, hthr]

/-- Witness for the amended C2: maxFailures 2, resetTimeout 100,
probe limit 2; opened at instant 0, probed at instant 150. -/
theorem circuitBreaker_recovery_amended_witness :
    callN 0 (some (SoxErr.workerFailure 0)) 2 (NewCircuitBreakerWithConfig 2 100 2) =
      ⟨2, 100, 2, CircuitState.stateOpen, 2, 0, 0, 0⟩ ∧
    CircuitBreaker.beforeRequest ⟨2, 100, 2, CircuitState.stateOpen, 2, 0, 0, 0⟩ 150 =
      (none, ⟨2, 100, 2, CircuitState.stateHalfOpen, 2, 0, 0, 1⟩) ∧
    callN 150 none 2 ⟨2, 100, 2, CircuitState.stateOpen, 2, 0, 0, 0⟩ =
      ⟨2, 100, 2, CircuitState.stateClosed, 0, 0, 2, 0⟩ ∧
    (CircuitBreaker.Call ⟨2, 100, 2, CircuitState.stateOpen, 2, 0, 0, 0⟩ 150
        (some (SoxErr.workerFailure 0))).2.state = CircuitState.stateOpen := by
  have h := circuitBreaker_recovery_amended 2 2 100 0 150 (SoxErr.workerFailure 0)
    (by decide) (by decide) (by decide)
  simpa using h

/-- C6 amended: in stream mode, Write is rejected with an error and
the Task left unchanged whenever the stream is not Started or already
Closed; in ticker mode, however, Write consults no lifecycle state at
all and appends to the accumulation buffer unconditionally - before
Start() and after Stop() alike (src/sox.go lines 469-498). -/
theorem taskWrite_lifecycle_amended (c : TaskW) (data : List Nat) :
    (c.tickerMode = false → c.streamMode = true →
      (c.streamStarted = false ∨ c.streamClosed = true) →
      ∃ e, taskWrite c data = (Except.error e, c)) ∧
    (c.tickerMode = true →
      taskWrite c data =
        (Except.ok data.length, {c with tickerBuffer := c.tickerBuffer ++ data})) := by
  constructor
  · rintro ht hs (hns | hcl)
    · exact ⟨WriteErr.streamNotStarted, by simp [taskWrite, ht, hs, hns]⟩
    · by_cases hst : c.streamStarted = false
      · exact ⟨WriteErr.streamNotStarted, by simp [taskWrite, ht, hs, hst]⟩
      · exact ⟨WriteErr.streamIsClosed, by simp [taskWrite, ht, hs, hst, hcl]⟩
  · intro ht
    simp [taskWrite, ht]

/-- Witness for the amended C6: a stream-mode Task before Start()
rejects a write unchanged, while a ticker-mode Task in the same
lifecycle position accepts and buffers it. -/
theorem taskWrite_lifecycle_amended_witness :
    (∃ e, taskWrite ⟨false, true, false, false, false, [], [], []⟩ [3] =
      (Except.error e, ⟨false, true, false, false, false, [], [], []⟩)) ∧
    taskWrite ⟨true, false, false, false, false, [], [], []⟩ [3] =
      (Except.ok 1, ⟨true, false, false, false, false, [3], [], []⟩) := by
  refine ⟨(taskWrite_lifecycle_amended ⟨false, true, false, false, false, [], [], []⟩ [3]).1
    rfl rfl (Or.inl rfl), ?_⟩
  have h := (taskWrite_lifecycle_amended ⟨true, false, false, false, false, [], [], []⟩ [3]).2
    rfl
  simpa using h

/-- Invariant tying the pool counters together under the sequential
trace semantics: active mirrors the semaphore occupancy, which never
exceeds capacity. -/
def PoolInv (cap : Nat) (p : Pool) : Prop :=
  p.maxWorkers = cap ∧ p.active = (p.semCount : Int) ∧ p.semCount ≤ cap

/-- Helper: every reachable pool state satisfies the invariant. -/
theorem runOps_inv (cap : Nat) :
    ∀ ops (p p' : Pool), PoolInv cap p → runOps p ops = some p' → PoolInv cap p' := by
  intro ops
  induction ops with
  | nil =>
    intro p p' hp hrun
    simp [runOps] at hrun
    rwa [← hrun]
  | cons op rest ih =>
    intro p p' hp hrun
    obtain ⟨h1, h2, h3⟩ := hp
    cases op with
    | acquire cancelled =>
      cases cancelled with
      | true => exact ih p p' ⟨h1, h2, h3⟩ hrun
      | false =>
        simp only [runOps] at hrun
        by_cases hc : p.semCount < p.maxWorkers
        · rw [if_pos hc] at hrun
          refine ih _ p' ⟨?_, ?_, ?_⟩ hrun
          · simpa [Pool.acquireOk] using h1
          · simp only [Pool.acquireOk]
            push_cast
            omega
          · simp only [Pool.acquireOk]
            omega
        · rw [if_neg hc] at hrun
          cases hrun
    | release =>
      simp only [runOps] at hrun
      by_cases hc : 1 ≤ p.active ∧ 1 ≤ p.semCount
      · rw [if_pos hc] at hrun
        refine ih _ p' ⟨?_, ?_, ?_⟩ hrun
        · simpa [Pool.release] using h1
        · simp only [Pool.release]
          have := hc.2
          push_cast [Nat.cast_sub this]
          omega
        · simp only [Pool.release]
          omega
      · rw [if_neg hc] at hrun
        cases hrun

/-- C9: under the sequential trace semantics of matched
Acquire/Release discipline, every pool state reachable from
NewPoolWithLimit cap (cap positive) satisfies 0 <= active <= cap with
active mirroring the reserved semaphore slots; from any such state an
uncancelled Acquire succeeds exactly when active < cap and would
block when active = cap; an Acquire whose context is cancelled
returns the admission error leaving active and the reserved slots
unchanged; and a Release frees exactly one slot, so that a pending
(blocked) Acquire immediately succeeds afterwards
(src/unnamed/part_003 lines 50-68). -/
theorem pool_admission_invariants (cap : Nat) (ops : List PoolOp) (p' : Pool)
    (hcap : 0 < cap) (hrun : runOps (NewPoolWithLimit cap) ops = some p') :
    (0 ≤ p'.active ∧ p'.active ≤ (cap : Int) ∧ p'.active = (p'.semCount : Int)) ∧
    (p'.active < (cap : Int) → runOps p' [PoolOp.acquire false] = some p'.acquireOk) ∧
    (p'.active = (cap : Int) → runOps p' [PoolOp.acquire false] = none) ∧
    runOps p' [PoolOp.acquire true] = some p' ∧
    (1 ≤ p'.active →
      runOps p' [PoolOp.release, PoolOp.acquire false] = some p'.release.acquireOk) := by
  have hstart : PoolInv cap (NewPoolWithLimit cap) := by
    have hne : ¬ ((cap : Int) ≤ 0) := by omega
    simp [NewPoolWithLimit, PoolInv, hne]
  have hinv := runOps_inv cap ops _ p' hstart hrun
  obtain ⟨h1, h2, h3⟩ := hinv
  refine ⟨⟨by omega, by omega, h2⟩, ?_, ?_, ?_, ?_⟩
  · intro hlt
    have hc : p'.semCount < p'.maxWorkers := by
      rw [h1]
      omega
    simp only [runOps, if_pos hc]
  · intro heq
    have hc : ¬ (p'.semCount < p'.maxWorkers) := by
      rw [h1]
      omega
    simp only [runOps, if_neg hc]
  · rfl
  · intro hact
    have hsem : 1 ≤ p'.semCount := by omega
    have hgate : 1 ≤ p'.active ∧ 1 ≤ p'.semCount := ⟨hact, hsem⟩
    have hc : p'.release.semCount < p'.release.maxWorkers := by
      simp only [Pool.release, h1]
      omega
    simp only [runOps, if_pos hgate, if_pos hc]

/-- Witness for C9: capacity 2; two successful acquires, one
cancelled acquire and one release reach the pool state with one
active worker, from which an acquire succeeds, a cancelled acquire is
a no-op, and release-then-acquire succeeds. -/
theorem pool_admission_invariants_witness :
    (0 ≤ (⟨2, 1, 1⟩ : Pool).active ∧ (⟨2, 1, 1⟩ : Pool).active ≤ (2 : Int) ∧
      (⟨2, 1, 1⟩ : Pool).active = ((⟨2, 1, 1⟩ : Pool).semCount : Int)) ∧
    runOps (⟨2, 1, 1⟩ : Pool) [PoolOp.acquire false] = some (⟨2, 1, 1⟩ : Pool).acquireOk ∧
    runOps (⟨2, 1, 1⟩ : Pool) [PoolOp.acquire true] = some ⟨2, 1, 1⟩ ∧
    runOps (⟨2, 1, 1⟩ : Pool) [PoolOp.release, PoolOp.acquire false] =
      some (⟨2, 1, 1⟩ : Pool).release.acquireOk := by
  have h := pool_admission_invariants 2
    [PoolOp.acquire false, PoolOp.acquire false, PoolOp.acquire true, PoolOp.release]
    ⟨2, 1, 1⟩ (by decide) (by decide)
  exact ⟨h.1, h.2.1 (by decide), h.2.2.2.1, h.2.2.2.2 (by decide)⟩

/-- Helper: a take followed by dropping as many elements as were
actually taken reassembles the list. -/
theorem take_append_drop_min (n : Nat) (l : List Nat) :
    l.take n ++ l.drop (min n l.length) = l := by
  rcases le_total n l.length with h | h
  · rw [min_eq_left h, List.take_append_drop]
  · rw [min_eq_right h, List.drop_length, List.take_of_length_le h, List.append_nil]

/-- Helper: reading to exhaustion with chunk size at least 1 from a
nonnegative position, given fuel covering the remaining bytes, yields
exactly the bytes from the current position on. -/
theorem readToEnd_from_pos (k : Nat) (hk : 1 ≤ k) :
    ∀ fuel (r : BytesReader), 0 ≤ r.pos → r.data.length ≤ fuel + r.pos.toNat →
      readToEnd k fuel r = r.data.drop r.pos.toNat := by
  intro fuel
  induction fuel with
  | zero =>
    intro r h0 hlen
    rw [readToEnd]
    exact (List.drop_eq_nil_of_le (by omega)).symm
  | succ n ih =>
    intro r h0 hlen
    obtain ⟨p, hp⟩ : ∃ p : Nat, r.pos = (p : Int) :=
      ⟨r.pos.toNat, (Int.toNat_of_nonneg h0).symm⟩
    have hptn : r.pos.toNat = p := by omega
    by_cases hend : r.pos ≥ (r.data.length : Int)
    · rw [readToEnd]
      simp only [BytesReader.read, if_pos hend]
      exact (List.drop_eq_nil_of_le (by omega)).symm
    · have hlt : p < r.data.length := by omega
      rw [readToEnd]
      simp only [BytesReader.read, if_neg hend]
      have hclen : ((r.data.drop r.pos.toNat).take k).length =
          min k (r.data.length - p) := by
        rw [List.length_take, List.length_drop, hptn]
      have hcpos : 1 ≤ ((r.data.drop r.pos.toNat).take k).length := by
        rw [hclen]
        omega
      have hrec := ih ⟨r.data, r.pos + ((r.data.drop r.pos.toNat).take k).length⟩
        (by simp; omega) ?_
      · rw [hrec]
        have htn : (r.pos + (((r.data.drop r.pos.toNat).take k).length : Int)).toNat =
            p + ((r.data.drop r.pos.toNat).take k).length := by omega
        simp only [htn]
        rw [← List.drop_drop, hptn]
        have hmin : ((r.data.drop p).take k).length = min k (r.data.drop p).length := by
          rw [List.length_take]
        rw [hmin]
        exact take_append_drop_min k (r.data.drop p)
      · simp only []
        have htn : (r.pos + (((r.data.drop r.pos.toNat).take k).length : Int)).toNat =
            p + ((r.data.drop r.pos.toNat).take k).length := by omega
        rw [htn, hclen]
        omega

/-- C10: for every wrapped byte slice and read-buffer size of at
least one byte, Seek(0, io.SeekStart) followed by reading to
exhaustion yields exactly the original bytes - from any prior
position, hence for any number of repetitions; and any Seek whose
resulting absolute position would be negative (from SeekStart,
SeekCurrent or SeekEnd) returns errInvalidSeek and leaves the read
position unchanged (src/bytes.go lines 20-46). -/
theorem bytesReader_seek_read_roundtrip (r : BytesReader) (k : Nat) (hk : 1 ≤ k) :
    readToEnd k (r.data.length + 1) (r.seek 0 0).2 = r.data ∧
    (∀ off : Int, off < 0 → r.seek off 0 = (Except.error SeekErr.invalidSeek, r)) ∧
    (∀ off : Int, r.pos + off < 0 → r.seek off 1 = (Except.error SeekErr.invalidSeek, r)) ∧
    (∀ off : Int, (r.data.length : Int) + off < 0 →
      r.seek off 2 = (Except.error SeekErr.invalidSeek, r)) := by
  refine ⟨?_, ?_, ?_, ?_⟩
  · have hseek : (r.seek 0 0).2 = ⟨r.data, 0⟩ := by simp [BytesReader.seek]
    rw [hseek]
    have h := readToEnd_from_pos k hk (r.data.length + 1) ⟨r.data, 0⟩ (by simp)
      (by simp)
    simpa using h
  · intro off hoff
    simp [BytesReader.seek, hoff]
  · intro off hoff
    simp [BytesReader.seek, hoff]
  · intro off hoff
    simp [BytesReader.seek, hoff]

/-- Witness for C10: the reader over [1, 2, 3] already read to
exhaustion (pos 3) replays [1, 2, 3] after Seek(0, SeekStart) with
2-byte reads, and Seek(-7, SeekCurrent) from pos 3 errors without
moving. -/
theorem bytesReader_seek_read_roundtrip_witness :
    readToEnd 2 4 ((⟨[1, 2, 3], 3⟩ : BytesReader).seek 0 0).2 = [1, 2, 3] ∧
    (⟨[1, 2, 3], 3⟩ : BytesReader).seek (-7) 1 =
      (Except.error SeekErr.invalidSeek, ⟨[1, 2, 3], 3⟩) := by
  have h := bytesReader_seek_read_roundtrip ⟨[1, 2, 3], 3⟩ 2 (by decide)
  exact ⟨by simpa using h.1, h.2.2.1 (-7) (by decide)⟩

/-- Checkpoint invariant of the incremental-flush StreamConverter:
the bytes appended to the output file are exactly the buffer prefix
below lastFlushPosition, which never exceeds the buffer length. -/
def SCInv (s : StreamConv) : Prop :=
  s.fileOut = s.buffer.take s.lastFlushPosition ∧ s.lastFlushPosition ≤ s.buffer.length

/-- Helper: every interleaving of output drains and auto-flush ticks
preserves the checkpoint invariant - writeAvailableData emits only
the unflushed slice and advances the checkpoint by exactly the bytes
written. -/
theorem runSC_checkpoint_inv (ops : List SCOp) :
    ∀ s, SCInv s → SCInv (runSC s ops) := by
  induction ops with
  | nil => intro s hs; exact hs
  | cons op rest ih =>
    intro s hs
    obtain ⟨h1, h2⟩ := hs
    cases op with
    | drain chunk =>
      refine ih _ ⟨?_, ?_⟩
      · simp only [readOutputChunk]
        rw [h1, List.take_append_of_le_length h2]
      · simp only [readOutputChunk, List.length_append]
        omega
    | autoFlushTick =>
      refine ih _ ?_
      unfold writeAvailableData
      split_ifs with hc1 hc2
      · exact ⟨h1, h2⟩
      · exact ⟨h1, h2⟩
      · have hdl : (s.buffer.drop s.lastFlushPosition).length =
            s.buffer.length - s.lastFlushPosition := List.length_drop _ _
        constructor
        · simp only
          rw [h1, List.take_append_drop, hdl,
            show s.lastFlushPosition + (s.buffer.length - s.lastFlushPosition) =
              s.buffer.length by omega, List.take_length]
        · simp only [hdl]
          omega

/-- Helper: drains and auto-flush ticks never close the output
file. -/
theorem runSC_keeps_file_open (ops : List SCOp) :
    ∀ s : StreamConv, s.outputFileOpen = true → (runSC s ops).outputFileOpen = true := by
  induction ops with
  | nil => intro s hs; exact hs
  | cons op rest ih =>
    intro s hs
    cases op with
    | drain chunk => exact ih _ hs
    | autoFlushTick =>
      refine ih _ ?_
      unfold writeAvailableData
      split_ifs <;> exact hs

/-- The incremental-flush path of the StreamConverter satisfies the
checkpoint no-loss/no-duplication property on its own: starting from
a fresh open converter, after any interleaving of output drains and
auto-flush ticks, the final flush of Flush/Close leaves the output
file holding exactly the accumulated buffer, each byte emitted once.
(The Task ticker flush violates the same property - see the C1
theorem.) -/
theorem streamConverter_incremental_no_loss_no_dup (ops : List SCOp) :
    (flushFinal (runSC ⟨[], 0, false, true, []⟩ ops)).fileOut =
      (runSC ⟨[], 0, false, true, []⟩ ops).buffer := by
  have hinv := runSC_checkpoint_inv ops ⟨[], 0, false, true, []⟩ ⟨rfl, by simp⟩
  obtain ⟨h1, h2⟩ := hinv
  have hflag := runSC_keeps_file_open ops ⟨[], 0, false, true, []⟩
  set s := runSC ⟨[], 0, false, true, []⟩ ops with hsdef
  unfold flushFinal
  split_ifs with hopen hrem
  · simp only
    rw [h1, List.take_append_drop]
  · simp only
    rw [h1, List.take_of_length_le (by omega)]
  · exact absurd (hflag rfl) hopen
